import Mathlib

/-!
Shallow embedding of the inventory-processing core of the Ingress Inventory
Viewer (src/js/constants.js, src/js/utils.js, src/js/data.js), together with
theorems settling the frozen claims about it.

Modelling conventions:
* a JS inventory item `[id, timestamp, metadata]` is the triple
  `String × Int × Meta`;
* a missing (`undefined`) JS field is `Option.none`;
* JS string falsiness (`undefined` and `""` are falsy) is captured by the
  `jsOr*`/`jsTruthyStr` helpers;
* exact rational arithmetic stands in for JS doubles (the numbers handled by
  the claims stay far below 2^53, where doubles are exact);
* `String.prototype.localeCompare` is modelled as code-point comparison; all
  strings compared in this development are plain ASCII where the two agree;
* `Array.prototype.sort` is modelled as a stable comparison sort (insertion
  sort); for a consistent comparator every stable sort produces the same list.
-/

/-- JS `a || b` where `a` is a possibly-undefined string: `undefined` and the
empty string are falsy and fall through to `b`. -/
def jsOrOpt (a b : Option String) : Option String :=
  match a with
  | some s => if s = "" then b else some s
  | none => b

/-- JS `a || b` where `a` is a possibly-undefined string and `b` a string. -/
def jsOrString (a : Option String) (b : String) : String :=
  match a with
  | some s => if s = "" then b else s
  | none => b

/-- Normalizes a possibly-undefined JS string to `some` exactly when truthy. -/
def jsTruthyStr (a : Option String) : Option String :=
  match a with
  | some s => if s = "" then none else some s
  | none => none

/-- JS template-literal interpolation of a possibly-undefined string
(interpolating `undefined` prints the text "undefined"). -/
def jsShow (a : Option String) : String :=
  match a with
  | some s => s
  | none => "undefined"

/-- Model of `String.prototype.localeCompare` as code-point comparison,
returning the sign (-1, 0, 1); the titles compared by the source's comparators
in this development are ASCII, where locale order and code-point order agree. -/
def localeCompare (a b : String) : Int :=
  match compare a b with
  | .lt => -1
  | .eq => 0
  | .gt => 1

/-- `meta.resource` sub-record: the fields the pipeline reads. -/
structure Resource where
  resourceType : Option String
  resourceRarity : Option String
deriving DecidableEq

/-- `meta.resourceWithLevels` sub-record. -/
structure ResLevels where
  resourceType : Option String
  level : Option Int
deriving DecidableEq

/-- `meta.modResource` sub-record. -/
structure ModRes where
  resourceType : Option String
  rarity : Option String
  displayName : Option String
deriving DecidableEq

/-- `meta.portalCoupler` sub-record. -/
structure PortalCoupler where
  portalTitle : Option String
  portalLocation : Option String
deriving DecidableEq

/-- `meta.storyItem` sub-record. -/
structure StoryItem where
  shortDescription : Option String
deriving DecidableEq

/-- `meta.flipCard` sub-record. -/
structure FlipCard where
  flipCardType : Option String
deriving DecidableEq

/-- `meta.timedPowerupResource` sub-record. -/
structure TimedPowerup where
  designation : Option String
deriving DecidableEq

/-- `meta.playerPowerupResource` sub-record. -/
structure PlayerPowerup where
  playerPowerupEnum : Option String
deriving DecidableEq

/-- `meta._storedIn` provenance record written by `extractNestedItems`. -/
structure StoredIn where
  containerId : String
  containerType : String
deriving DecidableEq

/-- Item metadata. Each loosely-optional JS sub-record is an `Option`. The
`container` argument models `meta.container?.stackableItems` (the only access
path to `container` anywhere in the source): `some l` means a container
sub-record with a `stackableItems` array is present (`l` may be empty; an
empty JS array is still truthy). A stack descriptor is the pair of the
optional `itemGuids` list and the optional `exampleGameEntity` triple
`[id, timestamp, meta]`. `Meta` is an inductive rather than a structure
because `exampleGameEntity` nests `Meta` itself; the accessors below recover
field access. -/
inductive Meta : Type where
  | mk
    (container : Option (List (Option (List String) × Option (String × Int × Meta))))
    (resource : Option Resource)
    (resourceWithLevels : Option ResLevels)
    (modResource : Option ModRes)
    (portalCoupler : Option PortalCoupler)
    (storyItem : Option StoryItem)
    (flipCard : Option FlipCard)
    (timedPowerupResource : Option TimedPowerup)
    (playerPowerupResource : Option PlayerPowerup)
    (storedIn : Option StoredIn)

/-- An inventory item triple `[id, timestamp, metadata]`. -/
abbrev Item : Type := String × Int × Meta

/-- A stack descriptor inside a container. -/
abbrev Stackable : Type := Option (List String) × Option Item

def Meta.container : Meta → Option (List Stackable)
  | .mk c _ _ _ _ _ _ _ _ _ => c

def Meta.resource : Meta → Option Resource
  | .mk _ r _ _ _ _ _ _ _ _ => r

def Meta.resourceWithLevels : Meta → Option ResLevels
  | .mk _ _ rl _ _ _ _ _ _ _ => rl

def Meta.modResource : Meta → Option ModRes
  | .mk _ _ _ mr _ _ _ _ _ _ => mr

def Meta.portalCoupler : Meta → Option PortalCoupler
  | .mk _ _ _ _ pc _ _ _ _ _ => pc

def Meta.storyItem : Meta → Option StoryItem
  | .mk _ _ _ _ _ si _ _ _ _ => si

def Meta.flipCard : Meta → Option FlipCard
  | .mk _ _ _ _ _ _ fc _ _ _ => fc

def Meta.timedPowerupResource : Meta → Option TimedPowerup
  | .mk _ _ _ _ _ _ _ tp _ _ => tp

def Meta.playerPowerupResource : Meta → Option PlayerPowerup
  | .mk _ _ _ _ _ _ _ _ pp _ => pp

def Meta.storedIn : Meta → Option StoredIn
  | .mk _ _ _ _ _ _ _ _ _ st => st

/-- The spread-and-overwrite `{...templateMeta, _storedIn: {...}}` used when a
triple is synthesized out of a container: every field is copied and `_storedIn`
is (re)assigned; a later assignment wins over any provenance already present. -/
def Meta.withStoredIn (m : Meta) (s : StoredIn) : Meta :=
  match m with
  | .mk c r rl mr pc si fc tp pp _ => .mk c r rl mr pc si fc tp pp (some s)

/-- `ITEM_TYPES.MOD_TYPES` from constants.js. -/
def MOD_TYPES : List String :=
  ["EXTRA_SHIELD", "RES_SHIELD", "HEATSINK", "LINK_AMPLIFIER",
   "MULTIHACK", "TRANSMUTER_ATTACK", "TURRET", "ULTRA_LINK_AMP", "FORCE_AMP"]

/-- `ITEM_TYPES.WEAPON_TYPES` from constants.js. -/
def WEAPON_TYPES : List String := ["EMP_BURSTER", "FLIP_CARD", "ULTRA_STRIKE"]

/-- `ITEM_TYPES.CUBE_TYPES` from constants.js. -/
def CUBE_TYPES : List String := ["POWER_CUBE", "BOOSTED_POWER_CUBE"]

/-- `ITEM_TYPES.CAPSULE_TYPES` from constants.js. -/
def CAPSULE_TYPES : List String :=
  ["CAPSULE", "KEY_CAPSULE", "KINETIC_CAPSULE", "QUANTUM_CAPSULE", "INTEREST_CAPSULE"]

/-- `SORT_CONFIG.WEAPON_ORDER` from constants.js, as a lookup. -/
def WEAPON_ORDER (t : String) : Option Int :=
  if t = "EMP_BURSTER" then some 0
  else if t = "ULTRA_STRIKE" then some 1
  else if t = "FLIP_CARD" then some 2
  else none

/-- `SORT_CONFIG.MOD_ORDER` from constants.js, as a lookup. -/
def MOD_ORDER (t : String) : Option Int :=
  if t = "RES_SHIELD" then some 0
  else if t = "EXTRA_SHIELD" then some 0
  else if t = "HEATSINK" then some 1
  else if t = "MULTIHACK" then some 2
  else if t = "LINK_AMPLIFIER" then some 3
  else if t = "TRANSMUTER_ATTACK" then some 4
  else if t = "TRANSMUTER_DEFENSE" then some 4
  else if t = "TURRET" then some 5
  else if t = "FORCE_AMP" then some 6
  else none

/-- `RARITY.SORT_ORDER[r] || 0` from constants.js: the table maps VERY_RARE,
RARE, COMMON and the empty string; an absent key gives `undefined`, and both
`undefined` and the table's `0` collapse to `0` under `|| 0` at the use sites. -/
def RARITY_SORT_ORDER (r : String) : Int :=
  if r = "VERY_RARE" then 3
  else if r = "RARE" then 2
  else if r = "COMMON" then 1
  else 0

/-- `RARITY.ABBREVIATIONS` lookup from constants.js. -/
def RARITY_ABBREVIATIONS (r : String) : Option String :=
  if r = "VERY_RARE" then some "VR"
  else if r = "RARE" then some "R"
  else if r = "COMMON" then some "C"
  else none

/-- `abbreviateRarity(rarity)` from utils.js:
`CONSTANTS.RARITY.ABBREVIATIONS[rarity] || rarity || ''`. -/
def abbreviateRarity (rarity : Option String) : String :=
  jsOrString (jsOrOpt (rarity.bind RARITY_ABBREVIATIONS) rarity) ""

/-- `getDisplayType(resourceType)` from utils.js: exact-match special cases,
then set membership in source order, then the raw type itself. A missing raw
type matches nothing and is returned unchanged (`none`). -/
def getDisplayType (resourceType : Option String) : Option String :=
  match resourceType with
  | none => none
  | some t =>
    if t = "EMITTER_A" then some "Resonators"
    else if t = "PORTAL_LINK_KEY" then some "Keys"
    else if t = "MEDIA" then some "Media"
    else if t = "PORTAL_POWERUP" ∨ t = "PLAYER_POWERUP" then some "Powerups"
    else if t ∈ CAPSULE_TYPES then some "Capsules"
    else if t ∈ MOD_TYPES then some "Mods"
    else if t ∈ WEAPON_TYPES then some "Weapons"
    else if t ∈ CUBE_TYPES then some "Cubes"
    else some t

/-- Interpolation of `meta.resourceWithLevels.level || ''` inside a template
literal: level 0 and a missing level both print as the empty string. -/
def jsLevelStr (level : Option Int) : String :=
  match level with
  | some n => if n = 0 then "" else toString n
  | none => ""

/-- `displayTitle(id, meta)` from utils.js. The source's early-return chain is
rendered as a match cascade; the two-step conditions such as
`type === 'FLIP_CARD' && meta.flipCard?.flipCardType` fall through to the
final `return type` when the second conjunct is falsy, which `jsOrString`
captures. -/
def displayTitle (id : String) (m : Meta) : String :=
  match m.modResource with
  | some mr => abbreviateRarity (some (jsOrString mr.rarity ""))
  | none =>
  match jsTruthyStr (m.portalCoupler.bind PortalCoupler.portalTitle) with
  | some t => t
  | none =>
  match jsTruthyStr (m.storyItem.bind StoryItem.shortDescription) with
  | some d => d
  | none =>
  match jsTruthyStr (m.resourceWithLevels.bind ResLevels.resourceType) with
  | some ty =>
    let levelStr := jsLevelStr (m.resourceWithLevels.bind ResLevels.level)
    if ty ∈ ["EMITTER_A", "POWER_CUBE", "EMP_BURSTER", "ULTRA_STRIKE"] then
      "L" ++ levelStr
    else
      ty ++ " L" ++ levelStr
  | none =>
  match jsTruthyStr (m.resource.bind Resource.resourceType) with
  | some ty =>
    if ty = "FLIP_CARD" then
      jsOrString (jsTruthyStr (m.flipCard.bind FlipCard.flipCardType)) ty
    else if ty = "BOOSTED_POWER_CUBE" then "Hyper"
    else if ty = "PORTAL_POWERUP" then
      jsOrString (jsTruthyStr (m.timedPowerupResource.bind TimedPowerup.designation)) ty
    else if ty = "PLAYER_POWERUP" then
      jsOrString (jsTruthyStr (m.playerPowerupResource.bind PlayerPowerup.playerPowerupEnum)) ty
    else ty
  | none => id

/-- Decoded portal location in degrees. -/
structure Loc where
  lat : ℚ
  lon : ℚ
deriving DecidableEq

/-- JS `StrWhiteSpace` characters relevant here (the full JS set also contains
Unicode spaces, which no portal-location string carries). -/
def jsWhitespace (c : Char) : Bool :=
  (c == ' ') || (c == '\t') || (c == '\n') || (c == '\r') || (c == '\x0b') || (c == '\x0c')

def isHexDigit (c : Char) : Bool :=
  decide ('0' ≤ c ∧ c ≤ '9') || decide ('a' ≤ c ∧ c ≤ 'f') || decide ('A' ≤ c ∧ c ≤ 'F')

def hexDigitVal (c : Char) : Nat :=
  if '0' ≤ c ∧ c ≤ '9' then c.toNat - 48
  else if 'a' ≤ c ∧ c ≤ 'f' then c.toNat - 87
  else c.toNat - 55

/-- Model of `parseInt(chars, 16)` on the character list of the input string:
skip leading whitespace, an optional sign, an optional `0x`/`0X` prefix, then
the longest run of hex digits; `none` models the `NaN` result when no digits
are found. Values are exact integers; the double rounding/overflow of
astronomically long digit strings is outside the model. -/
def parseIntHexChars (cs0 : List Char) : Option Int :=
  let cs := cs0.dropWhile jsWhitespace
  let signAndRest : Int × List Char :=
    match cs with
    | '-' :: r => (-1, r)
    | '+' :: r => (1, r)
    | _ => (1, cs)
  let body : List Char :=
    match signAndRest.2 with
    | '0' :: 'x' :: r => r
    | '0' :: 'X' :: r => r
    | r => r
  let digits := body.takeWhile isHexDigit
  if digits.isEmpty then none
  else some (signAndRest.1 * Int.ofNat (digits.foldl (fun a c => a * 16 + hexDigitVal c) 0))

/-- `parseInt(s, 16)`. -/
def parseIntHex (s : String) : Option Int :=
  parseIntHexChars s.toList

/-- `toSigned` from `decodePortalLocation`:
`(n & 0x80000000) ? n - 0x100000000 : n`. The bitwise AND coerces `n` to a
32-bit pattern (`ToInt32`), so the test asks whether bit 31 of `n mod 2^32` is
set; the subtraction, however, applies to the original `n`. -/
def toSigned (n : Int) : Int :=
  if 2147483648 ≤ n % 4294967296 then n - 4294967296 else n

/-- `String.prototype.split(sep)` for a one-character separator, on character
lists (`"".split(',')` is `[""]`, a trailing separator yields a final empty
piece). -/
def splitOnChar (sep : Char) : List Char → List (List Char)
  | [] => [[]]
  | c :: t =>
    let r := splitOnChar sep t
    if c = sep then [] :: r
    else
      match r with
      | h :: t2 => (c :: h) :: t2
      | [] => [[c]]

/-- The integer stage of `decodePortalLocation(locationString)` from utils.js
(everything up to and including `toSigned`, before the 1e-6 scaling): the
`typeof locationString !== 'string'` guard is vacuous in the model (the input
is a string); `!locationString` catches the empty string; the comma check and
the split mirror `includes(',')` and `split(',')` (pieces beyond the second
are ignored by the destructuring). `none` is the `null` of the source,
covering a missing comma and a `NaN` (`!isFinite`) half. -/
def decodePortalLocationE6 (locationString : String) : Option (Int × Int) :=
  let cs := locationString.toList
  if cs.isEmpty then none
  else if ',' ∈ cs then
    match splitOnChar ',' cs with
    | latHex :: lonHex :: _ =>
      match parseIntHexChars latHex, parseIntHexChars lonHex with
      | some latRaw, some lonRaw => some (toSigned latRaw, toSigned lonRaw)
      | _, _ => none
    | _ => none
  else none

/-- `decodePortalLocation(locationString)` from utils.js: the decoded signed
integers scaled by 1e-6 to degrees. -/
def decodePortalLocation (locationString : String) : Option Loc :=
  (decodePortalLocationE6 locationString).map
    (fun p => { lat := (p.1 : ℚ) / 1000000, lon := (p.2 : ℚ) / 1000000 })

/-- First pass of `extractNestedItems`: the id → item lookup map, modelled by a
left fold so that a later duplicate id overwrites an earlier one. -/
def itemMapGet (xs : List Item) (k : String) : Option Item :=
  xs.foldl (fun acc it => if it.1 = k then some it else acc) none

/-- `meta.resource?.resourceType || 'CONTAINER'`, the provenance container
type recorded on synthesized triples. -/
def containerTypeOf (m : Meta) : String :=
  jsOrString (m.resource.bind Resource.resourceType) "CONTAINER"

/-- The triples synthesized from one stack descriptor of a container, in the
source's branch order: (a) GUID list with a template entity clones the
template per GUID; (b) a template entity alone yields exactly one triple;
(c) a GUID list alone looks each GUID up in the id map and silently skips
misses. -/
def stackExtra (allItems : List Item) (containerId : String) (ctype : String)
    (st : Stackable) : List Item :=
  match st with
  | (some guids, some (_, templateTs, templateMeta)) =>
    guids.map (fun g => (g, templateTs, templateMeta.withStoredIn ⟨containerId, ctype⟩))
  | (none, some (embeddedId, embeddedTs, embeddedMeta)) =>
    [(embeddedId, embeddedTs, embeddedMeta.withStoredIn ⟨containerId, ctype⟩)]
  | (some guids, none) =>
    guids.filterMap (fun g =>
      (itemMapGet allItems g).map
        (fun n => (n.1, n.2.1, n.2.2.withStoredIn ⟨containerId, ctype⟩)))
  | (none, none) => []

/-- All triples synthesized from one item: nothing unless the item carries a
container with a `stackableItems` array, else the concatenation over its stack
descriptors in order. -/
def itemExtra (allItems : List Item) (it : Item) : List Item :=
  match it.2.2.container with
  | some sts => (sts.map (stackExtra allItems it.1 (containerTypeOf it.2.2))).flatten
  | none => []

/-- `extractNestedItems(itemArray)` from data.js: the second pass pushes each
original triple and then, immediately after it, the triples synthesized from
its stack descriptors. -/
def extractNestedItems (itemArray : List Item) : List Item :=
  (itemArray.map (fun it => it :: itemExtra itemArray it)).flatten

/-- The filter configuration consumed by `filterItems`; `none` models an unset
`filters.rarity`. -/
structure FilterConfig where
  rarity : Option String
deriving DecidableEq

/-- The `meta.resource || meta.resourceWithLevels || meta.modResource || {}`
chain of `filterItems`, projected onto `resourceType`: the first present
sub-record (JS object truthiness) supplies the field. -/
def selectedResourceType (m : Meta) : Option String :=
  match m.resource with
  | some r => r.resourceType
  | none =>
    match m.resourceWithLevels with
    | some l => l.resourceType
    | none =>
      match m.modResource with
      | some mr => mr.resourceType
      | none => none

/-- The same chain projected onto `resourceRarity`: only the `meta.resource`
sub-record has a `resourceRarity` field, so every other branch (including the
final `{}`) yields `undefined`. -/
def selectedResourceRarity (m : Meta) : Option String :=
  match m.resource with
  | some r => r.resourceRarity
  | none =>
    match m.resourceWithLevels with
    | some _ => none
    | none =>
      match m.modResource with
      | some _ => none
      | none => none

/-- `resource.resourceRarity || meta.modResource?.rarity` from `filterItems`. -/
def resolvedRarity (m : Meta) : Option String :=
  jsOrOpt (selectedResourceRarity m) (m.modResource.bind ModRes.rarity)

/-- The predicate of `filterItems`: drones are always dropped; with a truthy
`filters.rarity`, the item survives only when the resolved rarity strictly
equals the requested value. -/
def filterPred (filters : FilterConfig) (it : Item) : Bool :=
  let m := it.2.2
  if selectedResourceType m = some "DRONE" then false
  else
    match filters.rarity with
    | some fr =>
      if fr = "" then true
      else decide (resolvedRarity m = some fr)
    | none => true

/-- `filterItems(items, filters)` from data.js. -/
def filterItems (items : List Item) (filters : FilterConfig) : List Item :=
  items.filter (filterPred filters)

/-- `meta.resourceWithLevels?.resourceType || meta.resource?.resourceType ||
meta.modResource?.resourceType` from `groupItems`. -/
def rawTypeOf (m : Meta) : Option String :=
  jsOrOpt (m.resourceWithLevels.bind ResLevels.resourceType)
    (jsOrOpt (m.resource.bind Resource.resourceType) (m.modResource.bind ModRes.resourceType))

/-- The group key of `groupItems`: `title|rawType` (template interpolation,
so a missing raw type prints "undefined") for the Weapons, Cubes and Mods
display categories, plain `title` otherwise. -/
def groupKeyOf (id : String) (m : Meta) : String :=
  let rawType := rawTypeOf m
  let dt := getDisplayType rawType
  let title := displayTitle id m
  if dt ∈ [some "Weapons", some "Cubes", some "Mods"] then
    title ++ "|" ++ jsShow rawType
  else title

/-- The group metadata snapshot `gmeta` of `groupItems`, with the
category-specific fields of the source; a category that does not set a field
leaves the neutral value the comparators' `|| ''` / `|| 0` / `?? 9` defaults
collapse to anyway. -/
structure GMeta where
  displayType : Option String
  title : String
  level : Int
  weaponType : String
  cubeType : String
  modType : String
  rarity : String
deriving DecidableEq

/-- Builds the `gmeta` snapshot from the item that first creates a group. -/
def mkGMeta (dt : Option String) (title : String) (rawType : Option String) (m : Meta) : GMeta :=
  let base : GMeta :=
    { displayType := dt, title := title, level := 0,
      weaponType := "", cubeType := "", modType := "", rarity := "" }
  if dt = some "Weapons" then
    { base with weaponType := jsOrString rawType "",
                level := (m.resourceWithLevels.bind ResLevels.level).getD 0 }
  else if dt = some "Cubes" then
    { base with cubeType := jsOrString rawType "",
                level := (m.resourceWithLevels.bind ResLevels.level).getD 0 }
  else if dt = some "Resonators" then
    { base with level := (m.resourceWithLevels.bind ResLevels.level).getD 0 }
  else if dt = some "Mods" then
    { base with modType := jsOrString rawType "",
                rarity := jsOrString (m.modResource.bind ModRes.rarity) "" }
  else base

/-- One member of a group's item list, as pushed by `groupItems`; the
source's redundant fourth field `item` (the original triple, identical to
`(id, ts, meta)`) is not duplicated. -/
structure GroupedItem where
  id : String
  ts : Int
  meta : Meta

/-- A group bucket `{ items, gmeta }`. -/
structure GroupBucket where
  items : List GroupedItem
  gmeta : GMeta

/-- Inner `Map<groupKey, GroupBucket>` in insertion order. -/
abbrev GroupMap := List (String × GroupBucket)

/-- Outer `Map<displayType, Map<groupKey, GroupBucket>>` in insertion order;
the display type can be the JS `undefined` (`none`), a legal Map key. -/
abbrev Buckets := List (Option String × GroupMap)

/-- Insertion-ordered JS `Map` update: `map.get(k)` mutated by `f` when `k` is
present (keeping its position), `map.set(k, f d)` appended at the end when
absent. -/
def upsert {κ β : Type} [DecidableEq κ] (l : List (κ × β)) (k : κ) (d : β) (f : β → β) :
    List (κ × β) :=
  match l with
  | [] => [(k, f d)]
  | (k0, v) :: t => if k0 = k then (k0, f v) :: t else (k0, v) :: upsert t k d f

/-- Association-list lookup mirroring `Map.get`. -/
def assocFind {κ β : Type} [DecidableEq κ] (l : List (κ × β)) (k : κ) : Option β :=
  match l with
  | [] => none
  | (k0, v) :: t => if k0 = k then some v else assocFind t k

/-- The display type `groupStep` computes for an item
(`getDisplayType(rawType)` on the item's raw resource type). -/
def dtOf (x : Item) : Option String := getDisplayType (rawTypeOf x.2.2)

/-- The group key `groupStep` computes for an item. -/
def keyOf (x : Item) : String := groupKeyOf x.1 x.2.2

/-- The grouped record `{id, ts, meta}` `groupStep` pushes for an item. -/
def giOf (x : Item) : GroupedItem := ⟨x.1, x.2.1, x.2.2⟩

/-- The `gmeta` snapshot `groupStep` takes from an item when the item opens a
new group. -/
def gmetaOf (x : Item) : GMeta :=
  mkGMeta (dtOf x) (displayTitle x.1 x.2.2) (rawTypeOf x.2.2) x.2.2

/-- One step of `groupItems`: classify and title the item, create the type
bucket and the group (with its `gmeta` snapshot taken from this item) if they
do not exist yet, then append the item to the group's list. -/
def groupStep (B : Buckets) (x : Item) : Buckets :=
  upsert B (dtOf x) []
    (fun inner =>
      upsert inner (keyOf x) ⟨[], gmetaOf x⟩
        (fun b => { b with items := b.items ++ [giOf x] }))

/-- `groupItems(filteredItems)` from data.js. -/
def groupItems (filteredItems : List Item) : Buckets :=
  filteredItems.foldl groupStep []

/-- `map.get(displayType)?.get(groupKey)` over the grouping result. -/
def bucketsFind (B : Buckets) (dt : Option String) (k : String) : Option GroupBucket :=
  match assocFind B dt with
  | none => none
  | some inner => assocFind inner k

/-- Stable insertion of `x` into a sorted list: `x` goes before the first
element `y` with `cmp x y ≤ 0`. -/
def insertSorted {α : Type} (cmp : α → α → Int) (x : α) : List α → List α
  | [] => [x]
  | y :: ys => if cmp x y ≤ 0 then x :: y :: ys else y :: insertSorted cmp x ys

/-- Model of `Array.prototype.sort(cmp)` as a stable insertion sort; for the
consistent comparators of this development any stable comparison sort
produces the same list as the engine's stable sort. -/
def stableSortBy {α : Type} (cmp : α → α → Int) : List α → List α
  | [] => []
  | x :: xs => insertSorted cmp x (stableSortBy cmp xs)

/-- A `(groupKey, bucket)` pair, one element of `Array.from(grouped.entries())`. -/
abbrev Entry : Type := String × GroupBucket

/-- `entry[0].split('|')[0]`: the title part of a group key (the split is the
same character-list one used for `decodePortalLocation`). -/
def entryTitle (e : Entry) : String :=
  ⟨(splitOnChar '|' e.1.toList).headD []⟩

/-- The per-mode sort directions `{alpha, count, time, distance}`. -/
structure Directions where
  alpha : String
  count : String
  time : String
  distance : String
deriving DecidableEq

/-- The key-sort configuration `{mode, directions}` supplied by the caller. -/
structure SortCfg where
  mode : String
  directions : Directions
deriving DecidableEq

/-- The user location consumed by distance sorting. -/
structure UserLoc where
  lat : ℚ
  lon : ℚ
deriving DecidableEq

/-- A distance as consumed by the distance comparator: a finite number of
kilometers or `Number.POSITIVE_INFINITY`. -/
inductive KmDist : Type where
  | fin (km : ℚ)
  | inf
deriving DecidableEq

/-- Sign of the JS comparator value `x - y` on distances: finite minus finite
is the sign of the difference; `Infinity - finite` is positive infinity,
`finite - Infinity` negative infinity, and `Infinity - Infinity` is `NaN`,
which `Array.prototype.sort` treats like 0 (no reordering). Only the sign of
a comparator's return value is observable. -/
def distSub (x y : KmDist) : Int :=
  match x, y with
  | .fin a, .fin b => if a < b then -1 else if a = b then 0 else 1
  | .inf, .fin _ => 1
  | .fin _, .inf => -1
  | .inf, .inf => 0

/-- The type of `haversineKm`. The source computes a great-circle distance
with `sin`, `cos`, `atan2` and `sqrt`; that transcendental computation is kept
as an abstract function of the four coordinates, and every theorem below
quantifies over it. Its value is always a finite number in the model, which
absorbs the source's `isFinite(km)` re-check. -/
abbrev HavFn := ℚ → ℚ → ℚ → ℚ → ℚ

/-- The `getDistance` closure of `sortKeys`: the location string of the first
item of the group, decoded; a missing first item, a missing or empty location
string, or a failed decode yields `Number.POSITIVE_INFINITY`. -/
def getDistance (hav : HavFn) (userLocation : UserLoc) (e : Entry) : KmDist :=
  match e.2.items.head? with
  | none => .inf
  | some firstItem =>
    match jsTruthyStr (firstItem.meta.portalCoupler.bind PortalCoupler.portalLocation) with
    | none => .inf
    | some ls =>
      match decodePortalLocation ls with
      | none => .inf
      | some loc => .fin (hav userLocation.lat userLocation.lon loc.lat loc.lon)

/-- The count-mode comparator of `sortKeys`. -/
def cmpCount (dirs : Directions) (a b : Entry) : Int :=
  let countA : Int := a.2.items.length
  let countB : Int := b.2.items.length
  if dirs.count = "desc" then countB - countA else countA - countB

/-- `items.reduce((max, item) => Math.max(max, Number(item.ts) || 0), 0)`;
timestamps are already numeric in the model, where `Number(ts) || 0` is the
identity. -/
def entryTime (e : Entry) : Int :=
  e.2.items.foldl (fun mx it => max mx it.ts) 0

/-- The time-mode comparator of `sortKeys`. -/
def cmpTime (dirs : Directions) (a b : Entry) : Int :=
  if dirs.time = "desc" then entryTime b - entryTime a else entryTime a - entryTime b

/-- The distance-mode comparator of `sortKeys`. -/
def cmpDistance (hav : HavFn) (dirs : Directions) (loc : UserLoc) (a b : Entry) : Int :=
  if dirs.distance = "desc" then distSub (getDistance hav loc b) (getDistance hav loc a)
  else distSub (getDistance hav loc a) (getDistance hav loc b)

/-- The alphabetical comparator of `sortKeys` (the default branch). -/
def cmpAlpha (dirs : Directions) (a b : Entry) : Int :=
  if dirs.alpha = "desc" then localeCompare (entryTitle b) (entryTitle a)
  else localeCompare (entryTitle a) (entryTitle b)

/-- `sortKeys(entries, sortConfig, userLocation)` from data.js. The source's
`mode === 'distance' && userLocation` guard is rendered by matching on the
(possibly null) user location inside the non-count, non-time case: both
failure legs fall through to the same alphabetical default. -/
def sortKeys (hav : HavFn) (entries : List Entry) (cfg : SortCfg)
    (userLocation : Option UserLoc) : List Entry :=
  if cfg.mode = "count" then stableSortBy (cmpCount cfg.directions) entries
  else if cfg.mode = "time" then stableSortBy (cmpTime cfg.directions) entries
  else
    match userLocation with
    | some loc =>
      if cfg.mode = "distance" then stableSortBy (cmpDistance hav cfg.directions loc) entries
      else stableSortBy (cmpAlpha cfg.directions) entries
    | none => stableSortBy (cmpAlpha cfg.directions) entries

/-- The Weapons comparator of `sortTypeGroups`: `WEAPON_ORDER[...] ?? 9`
ascending, then `level || 0` descending, then title ascending. -/
def cmpWeapons (a b : Entry) : Int :=
  let orderA := (WEAPON_ORDER a.2.gmeta.weaponType).getD 9
  let orderB := (WEAPON_ORDER b.2.gmeta.weaponType).getD 9
  if orderA ≠ orderB then orderA - orderB
  else if a.2.gmeta.level ≠ b.2.gmeta.level then b.2.gmeta.level - a.2.gmeta.level
  else localeCompare (entryTitle a) (entryTitle b)

/-- The Resonators comparator of `sortTypeGroups`: `level || 0` descending. -/
def cmpResonators (a b : Entry) : Int :=
  b.2.gmeta.level - a.2.gmeta.level

/-- The Cubes comparator of `sortTypeGroups`: `cubeType || ''` ascending, then
`level || 0` descending. -/
def cmpCubes (a b : Entry) : Int :=
  if a.2.gmeta.cubeType ≠ b.2.gmeta.cubeType then
    localeCompare a.2.gmeta.cubeType b.2.gmeta.cubeType
  else b.2.gmeta.level - a.2.gmeta.level

/-- The Mods comparator of `sortTypeGroups`: `MOD_ORDER[...] ?? 9` ascending,
then rarity descending (the source swaps A and B in the rarity-rank lookups),
then mod type ascending, then title ascending. -/
def cmpMods (a b : Entry) : Int :=
  let typeA := a.2.gmeta.modType
  let typeB := b.2.gmeta.modType
  let orderA := (MOD_ORDER typeA).getD 9
  let orderB := (MOD_ORDER typeB).getD 9
  if orderA ≠ orderB then orderA - orderB
  else
    let rarityOrderA := RARITY_SORT_ORDER b.2.gmeta.rarity
    let rarityOrderB := RARITY_SORT_ORDER a.2.gmeta.rarity
    if rarityOrderA ≠ rarityOrderB then rarityOrderA - rarityOrderB
    else if typeA ≠ typeB then localeCompare typeA typeB
    else localeCompare (entryTitle a) (entryTitle b)

/-- The Powerups comparator of `sortTypeGroups`: item count descending, then
title ascending. -/
def cmpPowerups (a b : Entry) : Int :=
  let countA : Int := a.2.items.length
  let countB : Int := b.2.items.length
  if countA ≠ countB then countB - countA
  else localeCompare (entryTitle a) (entryTitle b)

/-- The default comparator of `sortTypeGroups`: title ascending. -/
def cmpDefault (a b : Entry) : Int :=
  localeCompare (entryTitle a) (entryTitle b)

/-- `sortTypeGroups(entries, displayType, sortConfig, userLocation)` from
data.js: Keys dispatch to `sortKeys`, the other categories to their fixed
comparators, anything else to the alphabetical default. -/
def sortTypeGroups (hav : HavFn) (entries : List Entry) (displayType : Option String)
    (cfg : SortCfg) (userLocation : Option UserLoc) : List Entry :=
  if displayType = some "Keys" then sortKeys hav entries cfg userLocation
  else if displayType = some "Weapons" then stableSortBy cmpWeapons entries
  else if displayType = some "Resonators" then stableSortBy cmpResonators entries
  else if displayType = some "Cubes" then stableSortBy cmpCubes entries
  else if displayType = some "Mods" then stableSortBy cmpMods entries
  else if displayType = some "Powerups" then stableSortBy cmpPowerups entries
  else stableSortBy cmpDefault entries

/-- Test fixture: a metadata record with every sub-record absent. -/
def metaEmpty : Meta := .mk none none none none none none none none none none

/-- Test fixture: the metadata of an entity embedded in a container. -/
def metaE : Meta := .mk none none none none none (some ⟨some "story E"⟩) none none none none

/-- Test fixture: a container whose single stack descriptor carries only an
embedded `exampleGameEntity` (encoding b). -/
def metaC : Meta := .mk (some [(none, some ("e", 2, metaE))]) none none none none none none none none none

/-- Test fixture: a plain (container-free) item. -/
def pItem : Item := ("p", 3, metaEmpty)

/-- Test fixture: a container item. -/
def cItem : Item := ("c", 1, metaC)

/-- Test fixture: metadata of a level-based item. -/
def wMeta (t : String) (lvl : Int) : Meta :=
  .mk none none (some ⟨some t, some lvl⟩) none none none none none none none

/-- Test fixture: the weapons scenario of the spec, as raw items. -/
def wItems : List Item :=
  [("i1", 10, wMeta "EMP_BURSTER" 3), ("i2", 11, wMeta "EMP_BURSTER" 5),
   ("i3", 12, wMeta "ULTRA_STRIKE" 1)]

/-- Test fixture: the Weapons group entries produced by `groupItems` on
`wItems`, in insertion order. -/
def wEntries : List Entry := (assocFind (groupItems wItems) (some "Weapons")).getD []

/-- Test fixture: a haversine instantiation for witnesses. -/
def havZero : HavFn := fun _ _ _ _ => 0

/-- Test fixture: a neutral direction record. -/
def fxDirs : Directions := ⟨"asc", "asc", "asc", "asc"⟩

/-- Test fixture: directions selecting descending distance. -/
def fxDirsDesc : Directions := ⟨"asc", "asc", "asc", "desc"⟩

/-- Test fixture: a neutral group-meta record. -/
def gm0 : GMeta := ⟨none, "", 0, "", "", "", ""⟩

/-- Test fixture: two one-item key entries with equal counts and distinct
titles and keys. -/
def fxEntryA : Entry := ("A", ⟨[⟨"x1", 0, metaEmpty⟩], gm0⟩)

/-- Test fixture: see `fxEntryA`. -/
def fxEntryB : Entry := ("B", ⟨[⟨"x2", 0, metaEmpty⟩], gm0⟩)

/-- Test fixture: metadata of a key with a decodable portal location. -/
def metaKeyLoc : Meta :=
  .mk none none none none (some ⟨some "Portal T", some "0000000a,fffffff6"⟩) none none none none none

/-- Test fixture: a key-group entry whose first item has a decodable
location. -/
def fxFinEntry : Entry := ("Portal T", ⟨[⟨"k1", 5, metaKeyLoc⟩], gm0⟩)

/-- Test fixture: a key-group entry whose first item has no portal coupler at
all (undecodable location). -/
def fxInfEntry : Entry := ("No Loc", ⟨[⟨"k2", 6, metaEmpty⟩], gm0⟩)

/-- Test fixture: a user location. -/
def fxUloc : UserLoc := ⟨0, 0⟩

/-- Test fixture: metadata of a mod of the given type and rarity. -/
def modMeta (t r : String) : Meta :=
  .mk none none none (some ⟨some t, some r, none⟩) none none none none none none

/-- Test fixture: metadata of a portal powerup with the given designation. -/
def ppMeta (d : String) : Meta :=
  .mk none (some ⟨some "PORTAL_POWERUP", none⟩) none none none none none (some ⟨some d⟩) none none

/-- Test fixture: metadata of a player powerup with the given enum. -/
def plpMeta (d : String) : Meta :=
  .mk none (some ⟨some "PLAYER_POWERUP", none⟩) none none none none none none (some ⟨some d⟩) none

/-- Test fixture: the grouping state of one EMP_BURSTER L3 item. -/
def fxC4xs : List Item := [("i1", 10, wMeta "EMP_BURSTER" 3)]

/-- Test fixture: a second item with the same group key as `fxC4xs`. -/
def fxC4x : Item := ("i4", 13, wMeta "EMP_BURSTER" 3)

/-- Test fixture: the bucket `fxC4xs` produces. -/
def fxC4b : GroupBucket :=
  (bucketsFind (groupItems fxC4xs) (some "Weapons") "L3|EMP_BURSTER").getD ⟨[], gm0⟩

theorem mem_insertSorted {α : Type} (cmp : α → α → Int) (x a : α) :
    ∀ l : List α, a ∈ insertSorted cmp x l ↔ a = x ∨ a ∈ l := by
  intro l
  induction l with
  | nil => simp [insertSorted]
  | cons y ys ih =>
    by_cases h : cmp x y ≤ 0
    · simp [insertSorted, h]
    · simp [insertSorted, h, ih]
      tauto

theorem mem_stableSortBy {α : Type} (cmp : α → α → Int) (a : α) :
    ∀ l : List α, a ∈ stableSortBy cmp l ↔ a ∈ l := by
  intro l
  induction l with
  | nil => simp [stableSortBy]
  | cons y ys ih =>
    simp [stableSortBy, mem_insertSorted, ih]

/-- C10: if the key sort mode is "distance" but no user location is supplied,
`sortKeys` silently sorts alphabetically by title under the `alpha` direction
(no distance comparison, no error, no dropped entries). -/
theorem C10_distance_without_location_falls_back_alpha
    (hav : HavFn) (entries : List Entry) (cfg : SortCfg)
    (hmode : cfg.mode = "distance") :
    sortKeys hav entries cfg none = stableSortBy (cmpAlpha cfg.directions) entries := by
  simp [sortKeys, hmode]

theorem C10_witness :
    sortKeys havZero [fxEntryA] ⟨"distance", fxDirs⟩ none =
      stableSortBy (cmpAlpha fxDirs) [fxEntryA] :=
  C10_distance_without_location_falls_back_alpha havZero [fxEntryA] ⟨"distance", fxDirs⟩ rfl

/-- C2 counterexample: the count-mode Keys comparator returns 0 for two
entries with equal item counts even though their titles and their group-key
strings differ (and title/key comparison would be decisive), so equal-keyed
entries are NOT ordered by a fallback to title and then key string. -/
theorem C2_counterexample :
    cmpCount fxDirs fxEntryA fxEntryB = 0 ∧
    entryTitle fxEntryA ≠ entryTitle fxEntryB ∧
    fxEntryA.1 ≠ fxEntryB.1 ∧
    localeCompare (entryTitle fxEntryA) (entryTitle fxEntryB) ≠ 0 ∧
    localeCompare fxEntryA.1 fxEntryB.1 ≠ 0 := by
  refine ⟨rfl, ?_, ?_, ?_, ?_⟩ <;> decide

theorem distSub_self (x : KmDist) : distSub x x = 0 := by
  cases x with
  | fin q => simp [distSub]
  | inf => rfl

/-- C2 amended: every comparator is a total function, but the tie-break chain
stops where the source stops. Conjuncts in order: the Keys count, time and
distance modes and the Resonators and Cubes comparators return 0 on equal
primary keys without any fallback to titles or key strings (relative order of
such ties is left to sort stability); the Weapons, Mods and Powerups
comparators fall back to the title comparison and nothing further once their
primary keys tie; the alphabetical Keys mode (the default branch) is exactly
the title comparison in the selected direction; and no comparator ever
consults the group-key string beyond its title part — replacing either
argument's key by any other key with the same title part leaves every one of
the ten comparators' results unchanged. -/
theorem C2_amended_tie_breaks :
    (∀ (dirs : Directions) (a b : Entry),
        a.2.items.length = b.2.items.length → cmpCount dirs a b = 0) ∧
    (∀ (dirs : Directions) (a b : Entry),
        entryTime a = entryTime b → cmpTime dirs a b = 0) ∧
    (∀ (hav : HavFn) (dirs : Directions) (uloc : UserLoc) (a b : Entry),
        getDistance hav uloc a = getDistance hav uloc b →
        cmpDistance hav dirs uloc a b = 0) ∧
    (∀ a b : Entry, a.2.gmeta.level = b.2.gmeta.level → cmpResonators a b = 0) ∧
    (∀ a b : Entry,
        a.2.gmeta.cubeType = b.2.gmeta.cubeType →
        a.2.gmeta.level = b.2.gmeta.level →
        cmpCubes a b = 0) ∧
    (∀ a b : Entry,
        (WEAPON_ORDER a.2.gmeta.weaponType).getD 9 = (WEAPON_ORDER b.2.gmeta.weaponType).getD 9 →
        a.2.gmeta.level = b.2.gmeta.level →
        cmpWeapons a b = localeCompare (entryTitle a) (entryTitle b)) ∧
    (∀ a b : Entry,
        a.2.gmeta.modType = b.2.gmeta.modType →
        RARITY_SORT_ORDER a.2.gmeta.rarity = RARITY_SORT_ORDER b.2.gmeta.rarity →
        cmpMods a b = localeCompare (entryTitle a) (entryTitle b)) ∧
    (∀ a b : Entry,
        a.2.items.length = b.2.items.length →
        cmpPowerups a b = localeCompare (entryTitle a) (entryTitle b)) ∧
    (∀ (dirs : Directions) (a b : Entry),
        (dirs.alpha = "desc" →
          cmpAlpha dirs a b = localeCompare (entryTitle b) (entryTitle a)) ∧
        (dirs.alpha ≠ "desc" →
          cmpAlpha dirs a b = localeCompare (entryTitle a) (entryTitle b)) ∧
        cmpDefault a b = localeCompare (entryTitle a) (entryTitle b)) ∧
    (∀ (hav : HavFn) (dirs : Directions) (uloc : UserLoc) (k1 k2 : String) (a b : Entry),
        entryTitle (k1, a.2) = entryTitle a → entryTitle (k2, b.2) = entryTitle b →
        cmpCount dirs (k1, a.2) (k2, b.2) = cmpCount dirs a b ∧
        cmpTime dirs (k1, a.2) (k2, b.2) = cmpTime dirs a b ∧
        cmpDistance hav dirs uloc (k1, a.2) (k2, b.2) = cmpDistance hav dirs uloc a b ∧
        cmpResonators (k1, a.2) (k2, b.2) = cmpResonators a b ∧
        cmpCubes (k1, a.2) (k2, b.2) = cmpCubes a b ∧
        cmpWeapons (k1, a.2) (k2, b.2) = cmpWeapons a b ∧
        cmpMods (k1, a.2) (k2, b.2) = cmpMods a b ∧
        cmpPowerups (k1, a.2) (k2, b.2) = cmpPowerups a b ∧
        cmpAlpha dirs (k1, a.2) (k2, b.2) = cmpAlpha dirs a b ∧
        cmpDefault (k1, a.2) (k2, b.2) = cmpDefault a b) := by
  refine ⟨?_, ?_, ?_, ?_, ?_, ?_, ?_, ?_, ?_, ?_⟩
  · intro dirs a b h
    simp [cmpCount, h]
  · intro dirs a b h
    simp [cmpTime, h]
  · intro hav dirs uloc a b h
    unfold cmpDistance
    split_ifs <;> rw [h] <;> exact distSub_self _
  · intro a b h
    simp [cmpResonators, h]
  · intro a b h1 h2
    simp [cmpCubes, h1, h2]
  · intro a b h1 h2
    simp [cmpWeapons, h1, h2]
  · intro a b h1 h2
    simp [cmpMods, h1, h2]
  · intro a b h
    simp [cmpPowerups, h]
  · intro dirs a b
    refine ⟨?_, ?_, rfl⟩
    · intro hdir
      simp [cmpAlpha, hdir]
    · intro hdir
      simp [cmpAlpha, hdir]
  · intro hav dirs uloc k1 k2 a b ht1 ht2
    refine ⟨rfl, rfl, rfl, rfl, rfl, ?_, ?_, ?_, ?_, ?_⟩
    · simp [cmpWeapons, ht1, ht2]
    · simp [cmpMods, ht1, ht2]
    · simp [cmpPowerups, ht1, ht2]
    · simp [cmpAlpha, ht1, ht2]
    · simp [cmpDefault, ht1, ht2]

theorem C2_witness :
    cmpCount fxDirs fxEntryA fxEntryB = 0 ∧
    cmpDistance havZero fxDirs fxUloc fxInfEntry fxInfEntry = 0 ∧
    cmpWeapons fxEntryA fxEntryB = localeCompare (entryTitle fxEntryA) (entryTitle fxEntryB) ∧
    cmpMods fxEntryA fxEntryB = localeCompare (entryTitle fxEntryA) (entryTitle fxEntryB) ∧
    cmpAlpha fxDirs fxEntryA fxEntryB = localeCompare (entryTitle fxEntryA) (entryTitle fxEntryB) ∧
    cmpWeapons ("A|SOMETHING", fxEntryA.2) fxEntryB = cmpWeapons fxEntryA fxEntryB :=
  ⟨C2_amended_tie_breaks.1 fxDirs fxEntryA fxEntryB rfl,
   C2_amended_tie_breaks.2.2.1 havZero fxDirs fxUloc fxInfEntry fxInfEntry rfl,
   (C2_amended_tie_breaks.2.2.2.2.2.1 fxEntryA fxEntryB rfl rfl),
   (C2_amended_tie_breaks.2.2.2.2.2.2.1 fxEntryA fxEntryB rfl rfl),
   ((C2_amended_tie_breaks.2.2.2.2.2.2.2.2.1 fxDirs fxEntryA fxEntryB).2.1 (by decide)),
   (C2_amended_tie_breaks.2.2.2.2.2.2.2.2.2 havZero fxDirs fxUloc
      "A|SOMETHING" fxEntryB.1 fxEntryA fxEntryB rfl rfl).2.2.2.2.2.1⟩

/-- C5: in Keys distance-sort mode, a group whose first key has a missing or
undecodable portal location gets distance `Number.POSITIVE_INFINITY` (first
three conjuncts: no first item, falsy location string, failed decode); such a
group is the comparative maximum under both directions — the descending
comparator puts it before any finite-distance group (-1), the ascending one
after it (+1) — so in descending distance order it appears first (final
conjunct shows this positionally); and sorting never drops a group (the
membership conjunct holds for every mode and direction). -/
theorem C5_missing_location_sorts_infinite :
    (∀ (hav : HavFn) (uloc : UserLoc) (e : Entry),
        e.2.items.head? = none → getDistance hav uloc e = .inf) ∧
    (∀ (hav : HavFn) (uloc : UserLoc) (e : Entry) (fi : GroupedItem),
        e.2.items.head? = some fi →
        jsTruthyStr (fi.meta.portalCoupler.bind PortalCoupler.portalLocation) = none →
        getDistance hav uloc e = .inf) ∧
    (∀ (hav : HavFn) (uloc : UserLoc) (e : Entry) (fi : GroupedItem) (ls : String),
        e.2.items.head? = some fi →
        jsTruthyStr (fi.meta.portalCoupler.bind PortalCoupler.portalLocation) = some ls →
        decodePortalLocation ls = none →
        getDistance hav uloc e = .inf) ∧
    (∀ (hav : HavFn) (dirs : Directions) (uloc : UserLoc) (a b : Entry) (q : ℚ),
        getDistance hav uloc a = .inf → getDistance hav uloc b = .fin q →
        (dirs.distance = "desc" → cmpDistance hav dirs uloc a b = -1) ∧
        (dirs.distance ≠ "desc" → cmpDistance hav dirs uloc a b = 1)) ∧
    (∀ (hav : HavFn) (entries : List Entry) (cfg : SortCfg) (uloc : Option UserLoc)
        (e : Entry), e ∈ entries → e ∈ sortKeys hav entries cfg uloc) ∧
    (∀ hav : HavFn,
        sortKeys hav [fxFinEntry, fxInfEntry] ⟨"distance", fxDirsDesc⟩ (some fxUloc) =
          [fxInfEntry, fxFinEntry]) := by
  refine ⟨?_, ?_, ?_, ?_, ?_, ?_⟩
  · intro hav uloc e h
    simp [getDistance, h]
  · intro hav uloc e fi h1 h2
    simp [getDistance, h1, h2]
  · intro hav uloc e fi ls h1 h2 h3
    simp [getDistance, h1, h2, h3]
  · intro hav dirs uloc a b q ha hb
    constructor
    · intro hdir
      simp [cmpDistance, hdir, ha, hb, distSub]
    · intro hdir
      simp [cmpDistance, hdir, ha, hb, distSub]
  · intro hav entries cfg uloc e he
    unfold sortKeys
    split_ifs <;> first
      | exact (mem_stableSortBy _ _ _).mpr he
      | (cases uloc <;> exact (mem_stableSortBy _ _ _).mpr he)
  · intro hav
    rfl

theorem C5_witness :
    getDistance havZero fxUloc fxInfEntry = .inf ∧
    (cmpDistance havZero fxDirsDesc fxUloc fxInfEntry fxFinEntry = -1) ∧
    fxFinEntry ∈ sortKeys havZero [fxFinEntry, fxInfEntry] ⟨"distance", fxDirsDesc⟩ (some fxUloc) := by
  refine ⟨?_, ?_, ?_⟩
  · exact C5_missing_location_sorts_infinite.2.1 havZero fxUloc fxInfEntry
      ⟨"k2", 6, metaEmpty⟩ rfl rfl
  · exact (C5_missing_location_sorts_infinite.2.2.2.1 havZero fxDirsDesc fxUloc
      fxInfEntry fxFinEntry (havZero 0 0 (10/1000000) (-10/1000000)) rfl rfl).1 rfl
  · exact C5_missing_location_sorts_infinite.2.2.2.2.1 havZero
      [fxFinEntry, fxInfEntry] ⟨"distance", fxDirsDesc⟩ (some fxUloc) fxFinEntry
      (by simp)

/-- C9: the Weapons comparator orders by the fixed weapon type-rank table
(absent types rank 9) ascending, then level descending, then title ascending
(first three conjuncts characterize the comparator); and the pipeline-built
groups for EMP_BURSTER L3, EMP_BURSTER L5, ULTRA_STRIKE L1 sort to
EMP_BURSTER L5, EMP_BURSTER L3, ULTRA_STRIKE L1 (final conjunct, checked on
the group keys `title|weaponType` of the sorted entries). -/
theorem C9_weapons_sort_order :
    (∀ a b : Entry,
        (WEAPON_ORDER a.2.gmeta.weaponType).getD 9 < (WEAPON_ORDER b.2.gmeta.weaponType).getD 9 →
        cmpWeapons a b < 0) ∧
    (∀ a b : Entry,
        (WEAPON_ORDER a.2.gmeta.weaponType).getD 9 = (WEAPON_ORDER b.2.gmeta.weaponType).getD 9 →
        b.2.gmeta.level < a.2.gmeta.level →
        cmpWeapons a b < 0) ∧
    (∀ a b : Entry,
        (WEAPON_ORDER a.2.gmeta.weaponType).getD 9 = (WEAPON_ORDER b.2.gmeta.weaponType).getD 9 →
        a.2.gmeta.level = b.2.gmeta.level →
        cmpWeapons a b = localeCompare (entryTitle a) (entryTitle b)) ∧
    ((sortTypeGroups havZero wEntries (some "Weapons")
        ⟨"alpha", fxDirs⟩ none).map (fun e => e.1) =
      ["L5|EMP_BURSTER", "L3|EMP_BURSTER", "L1|ULTRA_STRIKE"]) := by
  refine ⟨?_, ?_, ?_, by decide⟩
  · intro a b h
    have hne : (WEAPON_ORDER a.2.gmeta.weaponType).getD 9 ≠ (WEAPON_ORDER b.2.gmeta.weaponType).getD 9 :=
      ne_of_lt h
    simp [cmpWeapons, hne]
    omega
  · intro a b h1 h2
    have hne : a.2.gmeta.level ≠ b.2.gmeta.level := (ne_of_lt h2).symm
    simp [cmpWeapons, h1, hne]
    omega
  · intro a b h1 h2
    simp [cmpWeapons, h1, h2]

theorem C9_witness :
    cmpWeapons fxEntryA fxEntryB = localeCompare (entryTitle fxEntryA) (entryTitle fxEntryB) :=
  C9_weapons_sort_order.2.2.1 fxEntryA fxEntryB rfl rfl

/-- C7: with an active rarity filter (a truthy `filterConfig.rarity`), every
item surviving `filterItems` has resolved rarity exactly the requested value;
equivalently any item whose resolved rarity differs — in particular one with
no resolvable rarity at all — is excluded. -/
theorem C7_rarity_filter_excludes
    (items : List Item) (filters : FilterConfig) (fr : String)
    (hset : filters.rarity = some fr) (hne : fr ≠ "") :
    (∀ it ∈ filterItems items filters, resolvedRarity it.2.2 = some fr) ∧
    (∀ it : Item, resolvedRarity it.2.2 ≠ some fr → filterPred filters it = false) ∧
    (∀ it : Item, resolvedRarity it.2.2 = none → filterPred filters it = false) := by
  have hpred : ∀ it : Item, resolvedRarity it.2.2 ≠ some fr → filterPred filters it = false := by
    intro it hr
    simp only [filterPred]
    split_ifs with hdrone
    · rfl
    · rw [hset]
      simp [hne, hr]
  refine ⟨?_, hpred, ?_⟩
  · intro it hit
    rw [filterItems, List.mem_filter] at hit
    by_contra hr
    rw [hpred it hr] at hit
    exact Bool.noConfusion hit.2
  · intro it hr
    apply hpred
    rw [hr]
    exact fun h => Option.noConfusion h

theorem C7_witness :
    (∀ it ∈ filterItems [("m1", 1, modMeta "RES_SHIELD" "RARE"), ("m2", 2, metaEmpty)]
        ⟨some "RARE"⟩, resolvedRarity it.2.2 = some "RARE") ∧
    filterPred ⟨some "RARE"⟩ ("m2", 2, metaEmpty) = false :=
  ⟨(C7_rarity_filter_excludes [("m1", 1, modMeta "RES_SHIELD" "RARE"), ("m2", 2, metaEmpty)]
      ⟨some "RARE"⟩ "RARE" rfl (by decide)).1,
   (C7_rarity_filter_excludes [] ⟨some "RARE"⟩ "RARE" rfl (by decide)).2.2
     ("m2", 2, metaEmpty) rfl⟩

theorem assocFind_upsert_self {κ β : Type} [DecidableEq κ] (k : κ) (d : β) (f : β → β) :
    ∀ l : List (κ × β), assocFind (upsert l k d f) k = some (f ((assocFind l k).getD d)) := by
  intro l
  induction l with
  | nil => simp [upsert, assocFind]
  | cons p t ih =>
    obtain ⟨k0, v⟩ := p
    by_cases h : k0 = k
    · subst h
      simp [upsert, assocFind]
    · simp [upsert, assocFind, h, ih]

theorem assocFind_upsert_ne {κ β : Type} [DecidableEq κ] (k k2 : κ) (d : β) (f : β → β)
    (hne : k2 ≠ k) :
    ∀ l : List (κ × β), assocFind (upsert l k2 d f) k = assocFind l k := by
  intro l
  induction l with
  | nil => simp [upsert, assocFind, hne]
  | cons p t ih =>
    obtain ⟨k0, v⟩ := p
    by_cases h : k0 = k2
    · subst h
      simp [upsert, assocFind, hne, ih]
    · simp [upsert, assocFind, h, ih]

theorem groupItems_append_single (xs : List Item) (x : Item) :
    groupItems (xs ++ [x]) = groupStep (groupItems xs) x := by
  simp [groupItems, List.foldl_append]

theorem bucketsFind_some (B : Buckets) (dt : Option String) (k : String)
    (inner : GroupMap) (h : assocFind B dt = some inner) :
    bucketsFind B dt k = assocFind inner k := by
  unfold bucketsFind
  rw [h]

/-- C4: `groupMeta` is a first-write-wins snapshot. Second conjunct: when an
item's group key is not yet present, processing it creates the bucket with
`gmeta` computed from that item alone. First conjunct: appending any further
item to an existing group leaves the group's `gmeta` unchanged (its item list
either stays as-is — the new item went elsewhere — or gets the new member
appended); `gmeta` is never recomputed from later members. -/
theorem C4_groupMeta_first_write_wins :
    (∀ (xs : List Item) (x : Item) (dt : Option String) (k : String) (b : GroupBucket),
        bucketsFind (groupItems xs) dt k = some b →
        ∃ b2 : GroupBucket,
          bucketsFind (groupItems (xs ++ [x])) dt k = some b2 ∧
          b2.gmeta = b.gmeta ∧
          (b2.items = b.items ∨ b2.items = b.items ++ [giOf x])) ∧
    (∀ (xs : List Item) (x : Item),
        bucketsFind (groupItems xs) (dtOf x) (keyOf x) = none →
        bucketsFind (groupItems (xs ++ [x])) (dtOf x) (keyOf x) =
          some ⟨[giOf x], gmetaOf x⟩) := by
  constructor
  · intro xs x dt k b hb
    rw [groupItems_append_single]
    by_cases hdt : dtOf x = dt
    · obtain ⟨inner, hA, hI⟩ :
          ∃ inner, assocFind (groupItems xs) dt = some inner ∧ assocFind inner k = some b := by
        unfold bucketsFind at hb
        cases hA : assocFind (groupItems xs) dt with
        | none => rw [hA] at hb; exact absurd hb (by simp)
        | some inner => rw [hA] at hb; exact ⟨inner, rfl, hb⟩
      have houter : assocFind (groupStep (groupItems xs) x) dt =
          some (upsert inner (keyOf x) ⟨[], gmetaOf x⟩
            (fun b => { b with items := b.items ++ [giOf x] })) := by
        unfold groupStep
        rw [hdt, assocFind_upsert_self, hA]
        rfl
      rw [bucketsFind_some _ _ _ _ houter]
      by_cases hk : keyOf x = k
      · rw [hk, assocFind_upsert_self, hI]
        exact ⟨_, rfl, rfl, Or.inr rfl⟩
      · rw [assocFind_upsert_ne _ _ _ _ hk, hI]
        exact ⟨b, rfl, rfl, Or.inl rfl⟩
    · have houter : assocFind (groupStep (groupItems xs) x) dt =
          assocFind (groupItems xs) dt := by
        unfold groupStep
        exact assocFind_upsert_ne _ _ _ _ hdt _
      unfold bucketsFind at hb ⊢
      rw [houter]
      exact ⟨b, hb, rfl, Or.inl rfl⟩
  · intro xs x h
    rw [groupItems_append_single]
    have hinner : assocFind ((assocFind (groupItems xs) (dtOf x)).getD []) (keyOf x) = none := by
      unfold bucketsFind at h
      cases hA : assocFind (groupItems xs) (dtOf x) with
      | none => simp [assocFind]
      | some inner => rw [hA] at h; simpa using h
    have houter : assocFind (groupStep (groupItems xs) x) (dtOf x) =
        some (upsert ((assocFind (groupItems xs) (dtOf x)).getD []) (keyOf x)
          ⟨[], gmetaOf x⟩ (fun b => { b with items := b.items ++ [giOf x] })) := by
      unfold groupStep
      rw [assocFind_upsert_self]
    rw [bucketsFind_some _ _ _ _ houter, assocFind_upsert_self, hinner]
    rfl

theorem C4_witness :
    ∃ b2 : GroupBucket,
      bucketsFind (groupItems (fxC4xs ++ [fxC4x])) (some "Weapons") "L3|EMP_BURSTER" = some b2 ∧
      b2.gmeta = fxC4b.gmeta ∧
      (b2.items = fxC4b.items ∨ b2.items = fxC4b.items ++ [giOf fxC4x]) :=
  C4_groupMeta_first_write_wins.1 fxC4xs fxC4x (some "Weapons") "L3|EMP_BURSTER" fxC4b rfl

theorem string_append_cancel_left (p a b : String) (h : p ++ a = p ++ b) : a = b := by
  have hd := congrArg String.data h
  rw [String.data_append, String.data_append] at hd
  exact String.ext (List.append_cancel_left hd)

theorem getDisplayType_some_of_mem_WCM (rt : Option String)
    (h : getDisplayType rt ∈ [some "Weapons", some "Cubes", some "Mods"]) :
    ∃ t, rt = some t := by
  cases rt with
  | none => exact absurd h (by decide)
  | some t => exact ⟨t, rfl⟩

theorem keyOf_of_mem_WCM (x : Item)
    (h : dtOf x ∈ [some "Weapons", some "Cubes", some "Mods"]) :
    keyOf x = displayTitle x.1 x.2.2 ++ "|" ++ jsShow (rawTypeOf x.2.2) := by
  unfold dtOf at h
  simp only [keyOf, groupKeyOf]
  rw [if_pos h]

theorem keyOf_of_not_mem_WCM (x : Item)
    (h : dtOf x ∉ [some "Weapons", some "Cubes", some "Mods"]) :
    keyOf x = displayTitle x.1 x.2.2 := by
  unfold dtOf at h
  simp only [keyOf, groupKeyOf]
  rw [if_neg h]

theorem groupItems_pair_inner (x1 x2 : Item) (hdt : dtOf x1 = dtOf x2) :
    (assocFind (groupItems [x1, x2]) (dtOf x1)).getD [] =
      upsert [(keyOf x1, ⟨[giOf x1], gmetaOf x1⟩)] (keyOf x2) ⟨[], gmetaOf x2⟩
        (fun b => { b with items := b.items ++ [giOf x2] }) := by
  have h1 : groupItems [x1, x2] = groupStep (groupStep [] x1) x2 := rfl
  have h2 : groupStep [] x1 = [(dtOf x1, [(keyOf x1, ⟨[giOf x1], gmetaOf x1⟩)])] := rfl
  rw [h1, h2]
  unfold groupStep
  rw [← hdt]
  simp [upsert, assocFind]

/-- C8: two filtered items sharing a display title but carrying different raw
resource types land in distinct groups when their (common) display category
is Weapons, Cubes or Mods — the group key is `title|rawType`, and grouping
the two items yields two groups in that category's bucket — and merge into
one group (key = title, one bucket entry) under every other display
category. -/
theorem C8_groupKey_disambiguation (x1 x2 : Item)
    (htitle : displayTitle x1.1 x1.2.2 = displayTitle x2.1 x2.2.2)
    (hraw : rawTypeOf x1.2.2 ≠ rawTypeOf x2.2.2)
    (hdt : dtOf x1 = dtOf x2) :
    (dtOf x1 ∈ [some "Weapons", some "Cubes", some "Mods"] →
        keyOf x1 ≠ keyOf x2 ∧
        ((assocFind (groupItems [x1, x2]) (dtOf x1)).getD []).length = 2) ∧
    (dtOf x1 ∉ [some "Weapons", some "Cubes", some "Mods"] →
        keyOf x1 = keyOf x2 ∧
        ((assocFind (groupItems [x1, x2]) (dtOf x1)).getD []).length = 1) := by
  constructor
  · intro hmem
    obtain ⟨t1, ht1⟩ := getDisplayType_some_of_mem_WCM _ hmem
    obtain ⟨t2, ht2⟩ := getDisplayType_some_of_mem_WCM _ (hdt ▸ hmem)
    have hk1 : keyOf x1 = displayTitle x1.1 x1.2.2 ++ "|" ++ t1 := by
      rw [keyOf_of_mem_WCM x1 hmem, ht1]
      rfl
    have hk2 : keyOf x2 = displayTitle x2.1 x2.2.2 ++ "|" ++ t2 := by
      rw [keyOf_of_mem_WCM x2 (hdt ▸ hmem), ht2]
      rfl
    have hkey : keyOf x1 ≠ keyOf x2 := by
      rw [hk1, hk2, ← htitle]
      intro he
      apply hraw
      rw [ht1, ht2, string_append_cancel_left _ _ _ he]
    refine ⟨hkey, ?_⟩
    rw [groupItems_pair_inner x1 x2 hdt]
    simp [upsert, hkey]
  · intro hmem
    have hkey : keyOf x1 = keyOf x2 := by
      rw [keyOf_of_not_mem_WCM x1 hmem, keyOf_of_not_mem_WCM x2 (hdt ▸ hmem), htitle]
    refine ⟨hkey, ?_⟩
    rw [groupItems_pair_inner x1 x2 hdt]
    simp [upsert, hkey]

theorem C8_witness :
    (keyOf ("m1", 1, modMeta "EXTRA_SHIELD" "VERY_RARE") ≠
        keyOf ("m2", 2, modMeta "MULTIHACK" "VERY_RARE") ∧
      ((assocFind
          (groupItems [("m1", 1, modMeta "EXTRA_SHIELD" "VERY_RARE"),
            ("m2", 2, modMeta "MULTIHACK" "VERY_RARE")])
          (dtOf ("m1", 1, modMeta "EXTRA_SHIELD" "VERY_RARE"))).getD []).length = 2) ∧
    (keyOf ("p1", 1, ppMeta "FW_ENL") = keyOf ("p2", 2, plpMeta "FW_ENL") ∧
      ((assocFind (groupItems [("p1", 1, ppMeta "FW_ENL"), ("p2", 2, plpMeta "FW_ENL")])
          (dtOf ("p1", 1, ppMeta "FW_ENL"))).getD []).length = 1) :=
  ⟨(C8_groupKey_disambiguation ("m1", 1, modMeta "EXTRA_SHIELD" "VERY_RARE")
      ("m2", 2, modMeta "MULTIHACK" "VERY_RARE") rfl (by decide) rfl).1 (by decide),
   (C8_groupKey_disambiguation ("p1", 1, ppMeta "FW_ENL") ("p2", 2, plpMeta "FW_ENL")
      rfl (by decide) rfl).2 (by decide)⟩

theorem splitOnChar_ne_nil (sep : Char) : ∀ cs : List Char, splitOnChar sep cs ≠ [] := by
  intro cs
  induction cs with
  | nil => simp [splitOnChar]
  | cons c t ih =>
    by_cases hc : c = sep
    · simp [splitOnChar, hc]
    · simp only [splitOnChar, if_neg hc]
      cases hr : splitOnChar sep t with
      | nil => exact absurd hr ih
      | cons h0 t0 => simp

theorem splitOnChar_two_of_mem (sep : Char) :
    ∀ cs : List Char, sep ∈ cs → ∃ a b t, splitOnChar sep cs = a :: b :: t := by
  intro cs
  induction cs with
  | nil => intro h; exact absurd h (List.not_mem_nil sep)
  | cons c t ih =>
    intro h
    by_cases hc : c = sep
    · cases hr : splitOnChar sep t with
      | nil => exact absurd hr (splitOnChar_ne_nil sep t)
      | cons h0 t0 => exact ⟨[], h0, t0, by simp [splitOnChar, hc, hr]⟩
    · have ht : sep ∈ t := by
        cases List.mem_cons.mp h with
        | inl h1 => exact absurd h1.symm hc
        | inr h1 => exact h1
      obtain ⟨a, b, tt, hsplit⟩ := ih ht
      exact ⟨c :: a, b, tt, by simp [splitOnChar, hc, hsplit]⟩

/-- C6 counterexample: the halves are NOT always read as signed 32-bit
integers. On the 9-hex-digit half "100000000" (value 2^32), bit 31 of the low
32-bit word is clear, so `toSigned` keeps the full value: the decoder yields
latitude 4294.967296 degrees, while a two's-complement interpretation of the
32-bit pattern (0x00000000 — the value mod 2^32) would give 0. -/
theorem C6_counterexample :
    decodePortalLocation "100000000,00000000" =
      some ⟨(4294967296 : ℚ) / 1000000, 0⟩ ∧
    ¬ ((4294967296 : ℚ) / 1000000 = ((4294967296 % 4294967296 : Int) : ℚ) / 1000000) := by
  constructor
  · have hE6 : decodePortalLocationE6 "100000000,00000000" = some (4294967296, 0) := by decide
    unfold decodePortalLocation
    rw [hE6]
    simp [Option.map, Loc.mk.injEq]
  · norm_num

/-- C6 amended: `decodePortalLocation` splits on the comma, parses each half
with JS `parseInt(·, 16)` and subtracts 2^32 exactly when bit 31 of the
value's low 32-bit word is set — which coincides with the claimed signed
32-bit two's-complement interpretation whenever the parsed value lies in
[0, 2^32), e.g. for halves of at most 8 hex digits (second conjunct) — and
returns null exactly when the comma is missing or either half fails to parse
(first conjunct); the claim's concrete example stands (third conjunct). -/
theorem C6_amended_decode_semantics :
    (∀ s : String, decodePortalLocation s = none ↔
        (¬ (',' ∈ s.toList) ∨
         parseIntHexChars ((splitOnChar ',' s.toList).headD []) = none ∨
         parseIntHexChars ((splitOnChar ',' s.toList).tail.headD []) = none)) ∧
    (∀ n : Int, 0 ≤ n → n < 4294967296 →
        toSigned n = if n < 2147483648 then n else n - 4294967296) ∧
    decodePortalLocation "0000000a,fffffff6" = some ⟨1 / 100000, -(1 / 100000)⟩ := by
  refine ⟨?_, ?_, ?_⟩
  · intro s
    unfold decodePortalLocation
    rw [Option.map_eq_none']
    simp only [decodePortalLocationE6]
    by_cases hemp : s.toList.isEmpty = true
    · rw [if_pos hemp]
      have hne : ¬ (',' ∈ s.toList) := by
        rw [List.isEmpty_iff] at hemp
        rw [hemp]
        exact List.not_mem_nil ','
      exact iff_of_true rfl (Or.inl hne)
    · rw [if_neg hemp]
      by_cases hcon : ',' ∈ s.toList
      · obtain ⟨a, b, t, hsplit⟩ := splitOnChar_two_of_mem ',' _ hcon
        rw [hsplit]
        cases hpa : parseIntHexChars a <;> cases hpb : parseIntHexChars b <;>
          simp [hcon, hpa, hpb]
      · rw [if_neg hcon]
        exact iff_of_true rfl (Or.inl hcon)
  · intro n h1 h2
    unfold toSigned
    rw [Int.emod_eq_of_lt h1 h2]
    split_ifs <;> omega
  · have hE6 : decodePortalLocationE6 "0000000a,fffffff6" = some (10, -10) := by decide
    unfold decodePortalLocation
    rw [hE6]
    simp [Option.map, Loc.mk.injEq]
    norm_num

theorem C6_witness :
    decodePortalLocation "nope" = none ∧
    toSigned 4294967286 =
      (if (4294967286 : Int) < 2147483648 then (4294967286 : Int)
       else 4294967286 - 4294967296) :=
  ⟨(C6_amended_decode_semantics.1 "nope").mpr (Or.inl (by decide)),
   C6_amended_decode_semantics.2.1 4294967286 (by decide) (by decide)⟩

theorem sublist_flatten_cons_extra (src : List Item) :
    ∀ xs : List Item, xs.Sublist ((xs.map (fun it => it :: itemExtra src it)).flatten) := by
  intro xs
  induction xs with
  | nil => simp
  | cons it rest ih =>
    simp only [List.map_cons, List.flatten_cons, List.cons_append]
    exact List.Sublist.cons₂ it (ih.trans (List.sublist_append_right _ _))

theorem extract_sublist (xs : List Item) : xs.Sublist (extractNestedItems xs) :=
  sublist_flatten_cons_extra xs xs

theorem extract_length_aux (src : List Item) :
    ∀ xs : List Item,
      ((xs.map (fun it => it :: itemExtra src it)).flatten).length =
        xs.length + (xs.map (fun it => (itemExtra src it).length)).sum := by
  intro xs
  induction xs with
  | nil => simp
  | cons it rest ih =>
    simp only [List.map_cons, List.flatten_cons, List.length_append, List.length_cons,
      List.sum_cons, ih]
    omega

theorem extract_length (xs : List Item) :
    (extractNestedItems xs).length =
      xs.length + (xs.map (fun it => (itemExtra xs it).length)).sum :=
  extract_length_aux xs xs

theorem itemMapGet_foldl_isSome (k : String) :
    ∀ (l : List Item) (acc : Option Item),
      ((l.foldl (fun acc it => if it.1 = k then some it else acc) acc).isSome = true ↔
        acc.isSome = true ∨ ∃ it ∈ l, it.1 = k) := by
  intro l
  induction l with
  | nil => intro acc; simp
  | cons it rest ih =>
    intro acc
    rw [List.foldl_cons, ih]
    by_cases h : it.1 = k
    · exact iff_of_true (Or.inl (by simp [h]))
        (Or.inr ⟨it, List.mem_cons_self it rest, h⟩)
    · rw [if_neg h]
      constructor
      · rintro (ha | ⟨x, hx, hk⟩)
        · exact Or.inl ha
        · exact Or.inr ⟨x, List.mem_cons_of_mem it hx, hk⟩
      · rintro (ha | ⟨x, hx, hk⟩)
        · exact Or.inl ha
        · cases List.mem_cons.mp hx with
          | inl he => exact absurd (he ▸ hk) h
          | inr he => exact Or.inr ⟨x, he, hk⟩

theorem itemMapGet_isSome_iff (l : List Item) (k : String) :
    ((itemMapGet l k).isSome = true ↔ ∃ it ∈ l, it.1 = k) := by
  unfold itemMapGet
  rw [itemMapGet_foldl_isSome]
  simp

theorem filterMap_length_mono {α β : Type} (f g : α → Option β) :
    ∀ l : List α, (∀ a ∈ l, (f a).isSome = true → (g a).isSome = true) →
      (l.filterMap f).length ≤ (l.filterMap g).length := by
  intro l
  induction l with
  | nil => simp
  | cons a rest ih =>
    intro h
    have hrest := ih (fun x hx => h x (List.mem_cons_of_mem a hx))
    cases hfa : f a with
    | none =>
      cases hga : g a <;> simp [List.filterMap_cons, hfa, hga] <;> omega
    | some bfa =>
      have hg : (g a).isSome = true := h a (List.mem_cons_self a rest) (by simp [hfa])
      cases hga : g a with
      | none => rw [hga] at hg; exact absurd hg (by simp)
      | some bga =>
        simp only [List.filterMap_cons, hfa, hga, List.length_cons]
        omega

theorem stackExtra_length_mono (l1 l2 : List Item) (cid ct : String) (st : Stackable)
    (h : ∀ k, (itemMapGet l1 k).isSome = true → (itemMapGet l2 k).isSome = true) :
    (stackExtra l1 cid ct st).length ≤ (stackExtra l2 cid ct st).length := by
  obtain ⟨og, oe⟩ := st
  cases og with
  | none => cases oe <;> simp [stackExtra]
  | some guids =>
    cases oe with
    | some e => simp [stackExtra]
    | none =>
      simp only [stackExtra]
      apply filterMap_length_mono
      intro g _ hg
      cases hget : itemMapGet l1 g with
      | none => rw [hget] at hg; exact absurd hg (by simp)
      | some v =>
        have hg2 := h g (by simp [hget])
        cases hget2 : itemMapGet l2 g with
        | none => rw [hget2] at hg2; exact absurd hg2 (by simp)
        | some w => simp [hget2]

theorem itemExtra_length_mono (l1 l2 : List Item) (it : Item)
    (h : ∀ k, (itemMapGet l1 k).isSome = true → (itemMapGet l2 k).isSome = true) :
    (itemExtra l1 it).length ≤ (itemExtra l2 it).length := by
  unfold itemExtra
  cases hc : it.2.2.container with
  | none => exact le_refl 0
  | some sts =>
    rw [List.length_flatten, List.length_flatten, List.map_map, List.map_map]
    apply List.sum_le_sum
    intro st _
    exact stackExtra_length_mono l1 l2 _ _ st h

theorem itemMapGet_extract_mono (xs : List Item) (k : String)
    (h : (itemMapGet xs k).isSome = true) :
    (itemMapGet (extractNestedItems xs) k).isSome = true := by
  rw [itemMapGet_isSome_iff] at h ⊢
  obtain ⟨it, hmem, hk⟩ := h
  exact ⟨it, (extract_sublist xs).subset hmem, hk⟩

theorem flatten_map_cons_of_extra_nil (src : List Item) :
    ∀ xs : List Item, (∀ it ∈ xs, itemExtra src it = []) →
      (xs.map (fun it => it :: itemExtra src it)).flatten = xs := by
  intro xs
  induction xs with
  | nil => intro _; rfl
  | cons it rest ih =>
    intro hall
    simp only [List.map_cons, List.flatten_cons, List.cons_append,
      hall it (List.mem_cons_self it rest)]
    rw [ih (fun x hx => hall x (List.mem_cons_of_mem it hx))]
    rfl

/-- C1 counterexample: on the input `[container c, plain item p]` (where `c`
synthesizes one triple `e`), the output is `[c, e, p]` — the synthesized
triple appears before the later original — so the output does NOT begin with
all original triples followed by all synthesized triples (which would be
`[c, p, e]`). Checked on the id components. -/
theorem C1_counterexample :
    ((extractNestedItems [cItem, pItem]).map (fun it => it.1)) = ["c", "e", "p"] ∧
    ((extractNestedItems [cItem, pItem]).map (fun it => it.1)).take 2 ≠
      [cItem.1, pItem.1] := by
  constructor
  · decide
  · decide

/-- C1 amended: the expanded list carries the original triples in their
original order as a sublist, not as a prefix: each original triple is
immediately followed by the triples synthesized from its own stack
descriptors (in encounter order), and only then does the next original triple
follow. -/
theorem C1_amended_interleaved_order :
    (∀ xs : List Item, xs.Sublist (extractNestedItems xs)) ∧
    (∀ (xs ys zs : List Item) (it : Item), xs = ys ++ it :: zs →
        extractNestedItems xs =
          (ys.map (fun j => j :: itemExtra xs j)).flatten ++
          it :: (itemExtra xs it ++ (zs.map (fun j => j :: itemExtra xs j)).flatten)) := by
  constructor
  · exact extract_sublist
  · intro xs ys zs it hx
    subst hx
    unfold extractNestedItems
    simp [List.map_append, List.flatten_append]

theorem C1_witness :
    extractNestedItems [cItem, pItem] =
      (([] : List Item).map (fun j => j :: itemExtra [cItem, pItem] j)).flatten ++
      cItem :: (itemExtra [cItem, pItem] cItem ++
        ([pItem].map (fun j => j :: itemExtra [cItem, pItem] j)).flatten) :=
  C1_amended_interleaved_order.2 [cItem, pItem] [] [pItem] cItem rfl

/-- C3 counterexample: one container with a single embedded entity expands to
2 triples, and re-running the expander over that output expands the container
again, giving 3 — re-running is NOT growth-free. -/
theorem C3_counterexample :
    (extractNestedItems (extractNestedItems [cItem])).length ≠
      (extractNestedItems [cItem]).length := by
  decide

/-- C3 amended: originals keep their `container` sub-record in the output, so
a second pass re-expands every container; re-running `extractNestedItems`
over its own output produces zero additional growth exactly when the first
run already synthesized nothing. -/
theorem C3_amended_idempotent_iff_no_growth (xs : List Item) :
    ((extractNestedItems (extractNestedItems xs)).length =
        (extractNestedItems xs).length) ↔
    ((extractNestedItems xs).length = xs.length) := by
  constructor
  · intro h
    by_contra hne
    have h1 := extract_length xs
    have hS : (xs.map (fun it => (itemExtra xs it).length)).sum ≠ 0 := by
      intro h0
      exact hne (by omega)
    obtain ⟨it0, hmem0, hpos0⟩ : ∃ it ∈ xs, (itemExtra xs it).length ≠ 0 := by
      by_contra hall
      push_neg at hall
      apply hS
      apply List.sum_eq_zero
      intro x hx
      obtain ⟨it, hit, rfl⟩ := List.mem_map.mp hx
      exact hall it hit
    have h2 := extract_length (extractNestedItems xs)
    have hmono : (itemExtra xs it0).length ≤ (itemExtra (extractNestedItems xs) it0).length :=
      itemExtra_length_mono xs (extractNestedItems xs) it0 (itemMapGet_extract_mono xs)
    have hmem2 : it0 ∈ extractNestedItems xs := (extract_sublist xs).subset hmem0
    have hle : (itemExtra (extractNestedItems xs) it0).length ≤
        ((extractNestedItems xs).map
          (fun it => (itemExtra (extractNestedItems xs) it).length)).sum :=
      List.single_le_sum (fun x _ => Nat.zero_le x) _ (List.mem_map_of_mem _ hmem2)
    omega
  · intro h
    have h1 := extract_length xs
    have hall : ∀ it ∈ xs, itemExtra xs it = [] := by
      intro it hit
      have hx : (itemExtra xs it).length ∈ xs.map (fun it => (itemExtra xs it).length) :=
        List.mem_map_of_mem _ hit
      have hle := List.single_le_sum (fun x _ => Nat.zero_le x) _ hx
      have : (itemExtra xs it).length = 0 := by omega
      exact List.length_eq_zero.mp this
    have hfix : extractNestedItems xs = xs := flatten_map_cons_of_extra_nil xs xs hall
    rw [hfix]
    exact h

theorem C3_witness :
    (extractNestedItems (extractNestedItems [pItem])).length =
      (extractNestedItems [pItem]).length :=
  (C3_amended_idempotent_iff_no_growth [pItem]).mpr rfl
